import Mathlib

/-!
Verification of the PFA star-rating pipeline (baseline.py, current.py).

The pipeline's dataframe columns are embedded as lists of `Option ℚ`
(for the purely rational components: percentile ranking, domain means,
composite weighting, star ranks, cutoffs) and `Option ℝ` (for the
winsorization calibrator and the current-period re-standardizer, whose
statistics involve square roots).  A `none` cell models a pandas/NumPy
missing value (float NaN).  Decimal literals of the source (2.58, 0.001)
are embedded as the exact rationals they denote.
-/

namespace StarRating

/-- A cell of a rational dataframe column; `none` models NaN / missing. -/
abbrev Cell := Option ℚ

/-- NaN-propagating addition on cells (IEEE: any operation with NaN is NaN). -/
def qAdd : Cell → Cell → Cell
  | some a, some b => some (a + b)
  | _, _ => none

/-- NaN-propagating multiplication by a constant. -/
def qMul (c : ℚ) : Cell → Cell := Option.map (fun x => c * x)

/-! ## PercentileProbitTransformer (`calculate_percentiles`, baseline.py 34-51) -/

/-- Average-method fractional rank of `x` within the column `xs`
(`DataFrame.rank(method='average')`): ties share the mean of the positions
they occupy, which equals `#\x7by | y < x\x7d + (#\x7by | y = x\x7d + 1) / 2`. -/
def avgRank (xs : List ℚ) (x : ℚ) : ℚ :=
  xs.countP (fun y => decide (y < x)) + (xs.countP (fun y => decide (y = x)) + 1) / 2

/-- The source's `ranked = rank - 1` followed by `astype(int)` (truncation toward
zero; average ranks are at least 1, so `rank - 1` is nonnegative and truncation
coincides with the floor). -/
def rankIndex (xs : List ℚ) (x : ℚ) : ℤ := Int.floor (avgRank xs x - 1)

/-- `calculate_percentiles` for one measure column: percentile
`(rank_index + 1) / 200 * 100` per row. -/
def calculate_percentiles (xs : List ℚ) : List ℚ :=
  xs.map (fun x => ((rankIndex xs x : ℚ) + 1) / 200 * 100)

/-- Modelled from scipy's documented contract: `norm.ppf(q)` (the inverse
standard-normal CDF applied to `q`) is finite exactly when `0 < q < 1`;
it is `-inf` at 0, `+inf` at 1 and NaN outside `[0, 1]`.  Only finiteness
of the probit transform matters to the spec, so the transform itself is
embedded by this finiteness predicate. -/
def probitFinite (q : ℚ) : Prop := 0 < q ∧ q < 1

/-! ## StarRankAssigner (`assign_star_ranks`, baseline.py 155-173) -/

/-- NumPy `np.percentile` with the default linear-interpolation method:
with `a` sorted ascending and `h = (n-1)*q/100`, the result is
`a[⌊h⌋] + (h - ⌊h⌋) * (a[⌊h⌋+1] - a[⌊h⌋])` (the last term vanishing at
`q = 100` where `⌊h⌋ = n-1`). -/
def npPercentile (a : List ℚ) (q : ℚ) : ℚ :=
  let s := a.insertionSort (· ≤ ·)
  let h : ℚ := ((s.length : ℚ) - 1) * q / 100
  let i : ℕ := (Int.floor h).toNat
  let lo := s.getD i 0
  let hi := s.getD (i + 1) lo
  lo + (h - Int.floor h) * (hi - lo)

/-- `assign_star_ranks`: quintile values of the non-missing composite scores at
10/30/70/90/100, then `np.select` over the ordered conditions
`[isna, ≤q1, ≤q2, ≤q3, ≤q4]` with choice list `choices[1:] = [1,2,3,4,5]`
and default `choices[-1] = 5` (first matching condition wins; a NaN score
satisfies only the `isna` condition since NaN comparisons are False). -/
def assign_star_ranks (scores : List Cell) : List ℚ :=
  let dropna := scores.filterMap id
  let q1 := npPercentile dropna 10
  let q2 := npPercentile dropna 30
  let q3 := npPercentile dropna 70
  let q4 := npPercentile dropna 90
  let _q5 := npPercentile dropna 100
  scores.map (fun sc =>
    match sc with
    | none => 1
    | some v =>
      if v ≤ q1 then 2
      else if v ≤ q2 then 3
      else if v ≤ q3 then 4
      else if v ≤ q4 then 5
      else 5)

/-! ## DomainScoreAggregator (`calculate_domain_scores`, baseline.py 95-129) -/

/-- One facility's normalized-measure columns entering the four domains. -/
structure NormRow where
  n_var1_f : Cell
  n_var2_f : Cell
  n_var3_f : Cell
  n_var4_f : Cell
  w_star_var5_f : Cell
  w_star_var6_f : Cell
  w_star_var7_f : Cell
  w_star_var8_f : Cell
  n_var9_f : Cell
  w_star_var10_f : Cell

/-- The source's missing indicator `m_var = isna().astype(int)`. -/
def mInd (c : Cell) : ℚ := if c.isNone then 1 else 0

/-- Pandas `DataFrame.mean(axis=1)` over a list of cells: skips missing values;
NaN when every cell is missing. -/
def rowMean (cells : List Cell) : Cell :=
  let p := cells.filterMap id
  if p.length = 0 then none else some (p.sum / (p.length : ℚ))

/-- `calculate_domain_scores` for one facility: each domain is
`np.where(sum of missing indicators = arity, NaN, row mean of constituents)`. -/
def calculate_domain_scores (r : NormRow) : Cell × Cell × Cell × Cell :=
  (if mInd r.n_var1_f + mInd r.n_var2_f + mInd r.n_var3_f + mInd r.n_var4_f = 4
     then none else rowMean [r.n_var1_f, r.n_var2_f, r.n_var3_f, r.n_var4_f],
   if mInd r.w_star_var5_f + mInd r.w_star_var6_f = 2
     then none else rowMean [r.w_star_var5_f, r.w_star_var6_f],
   if mInd r.w_star_var7_f + mInd r.w_star_var8_f = 2
     then none else rowMean [r.w_star_var7_f, r.w_star_var8_f],
   if mInd r.n_var9_f + mInd r.w_star_var10_f = 2
     then none else rowMean [r.n_var9_f, r.w_star_var10_f])

/-- The spec's domain-score rule, stated in its own words: missing iff all
constituents are missing, otherwise the arithmetic mean of the non-missing
constituents only. -/
def specDomainScore (cells : List Cell) : Cell :=
  if cells.all (·.isNone) then none
  else some (((cells.filterMap id).sum) / ((cells.filterMap id).length : ℚ))

/-! ## CompositeScorer (`calculate_final_score`, baseline.py 131-153) -/

/-- One facility's domain scores and population flag. -/
structure ScoreRow where
  factor1 : Cell
  factor2 : Cell
  factor3 : Cell
  factor4 : Cell
  pdflag : ℚ

/-- Positional first-match selection: for each row position, the first
condition list holding `true` there selects the value of the matching
choice list, otherwise the default value at this position. -/
def selectGo : List (List Bool) → List (List Cell) → List Cell → List Cell
  | [], _, dflt => dflt
  | _ :: _, [], dflt => dflt
  | conds :: crest, chs :: chrest, dflt =>
    let rest := selectGo crest chrest dflt
    (conds.zip (chs.zip rest)).map (fun p => if p.1 then p.2.1 else p.2.2)

/-- NumPy `np.select(condlist, choicelist, default)`: raises
`ValueError('list of cases must be same length as list of conditions')`
whenever the two lists differ in length, before anything is selected;
embedded as an `Except`. -/
def npSelect (condlist : List (List Bool)) (choicelist : List (List Cell))
    (dflt : List Cell) : Except String (List Cell) :=
  if condlist.length = choicelist.length then .ok (selectGo condlist choicelist dflt)
  else .error "list of cases must be same length as list of conditions"

/-- The weighted composite of the source's `np.where(pdflag == 1, ..., ...)`
choice: `(2/5)*f1 + (1/5)*f3 + (2/5)*f4` for the flagged population, else
`(2/7)*f1 + (2/7)*f2 + (1/7)*f3 + (2/7)*f4`. -/
def weightedScore (r : ScoreRow) : Cell :=
  if r.pdflag = 1 then
    qAdd (qAdd (qMul (2/5) r.factor1) (qMul (1/5) r.factor3)) (qMul (2/5) r.factor4)
  else
    qAdd (qAdd (qAdd (qMul (2/7) r.factor1) (qMul (2/7) r.factor2))
      (qMul (1/7) r.factor3)) (qMul (2/7) r.factor4)

/-- `calculate_final_score`: the source builds FOUR conditions
(`factor1.isna()`, `factor3.isna()`, `factor4.isna()`,
`(pdflag == 0) & factor2.isna()`) but FIVE choices (four NaN columns and the
weighted column) and calls `np.select(conditions, choices, default=choices[-1])`. -/
def calculate_final_score (rows : List ScoreRow) : Except String (List Cell) :=
  let conds : List (List Bool) :=
    [rows.map (fun r => r.factor1.isNone),
     rows.map (fun r => r.factor3.isNone),
     rows.map (fun r => r.factor4.isNone),
     rows.map (fun r => decide (r.pdflag = 0) && r.factor2.isNone)]
  let choices : List (List Cell) :=
    [rows.map (fun _ => none),
     rows.map (fun _ => none),
     rows.map (fun _ => none),
     rows.map (fun _ => none),
     rows.map weightedScore]
  npSelect conds choices (rows.map weightedScore)

/-! ## CutoffCalculator (`calculate_cutoffs`, baseline.py 175-186) -/

/-- The sorted distinct star-rank keys of `groupby('starrank')`
(pandas sorts group keys ascending). -/
def groupKeys (rows : List (ℚ × ℚ)) : List ℚ :=
  ((rows.map Prod.fst).dedup).insertionSort (· ≤ ·)

/-- The `groupby('starrank')['final_score'].agg(['min','max'])` table, one
`(min, max)` row per distinct rank in ascending rank order.  Every group is
nonempty by construction; the `[]` branch is unreachable. -/
def groupAgg (rows : List (ℚ × ℚ)) : List (ℚ × ℚ) :=
  (groupKeys rows).map (fun k =>
    let g := rows.filterMap (fun p => if p.1 = k then some p.2 else none)
    match g with
    | [] => (0, 0)
    | h :: t => (t.foldl min h, t.foldl max h))

/-- Pandas `.loc[i]` on the reset-index aggregation table: positional label
lookup, raising a bare `KeyError` when the label is absent (fewer than `i + 1`
groups); embedded as an `Except`. -/
def locRow (tbl : List (ℚ × ℚ)) (i : ℕ) : Except String (ℚ × ℚ) :=
  match tbl.get? i with
  | some v => .ok v
  | none => .error "KeyError"

/-- `calculate_cutoffs`: boundary k is the average of group k's max score and
group (k+1)'s min score, read off rows 0..4 of the aggregation table. -/
def calculate_cutoffs (rows : List (ℚ × ℚ)) : Except String (ℚ × ℚ × ℚ × ℚ) := do
  let t := groupAgg rows
  let r0 ← locRow t 0
  let r1 ← locRow t 1
  let r2 ← locRow t 2
  let r3 ← locRow t 3
  let r4 ← locRow t 4
  return ((r0.2 + r1.1) / 2, (r1.2 + r2.1) / 2, (r2.2 + r3.1) / 2, (r3.2 + r4.1) / 2)

/-! ## WinsorizationCalibrator (`winsorize`, baseline.py 53-93) and
CurrentPeriodApplier (`restandardize_var`, current.py 6-49)

Real-valued columns: a cell is `Option ℝ`, `none` modelling a float NaN.
Comparisons against NaN are `False` (IEEE), and NaN propagates through
arithmetic.  Division by zero yields `none`: in every state this pipeline
reaches, a zero denominator comes with a zero or missing numerator (a zero
standard deviation forces every deviation from the mean to be zero), and IEEE
`0/0` is NaN, so the embedding agrees with the float code on reachable states.
-/

section Winsorization

open scoped Classical

/-- A cell of a real-valued column; `none` models a float NaN. -/
abbrev RCell := Option ℝ

/-- NaN-propagating subtraction. -/
noncomputable def oSub : RCell → RCell → RCell
  | some a, some b => some (a - b)
  | _, _ => none

/-- NaN-propagating division; a zero denominator yields `none` (see the section
comment: reachable zero denominators have zero or missing numerators, where
IEEE division also yields NaN). -/
noncomputable def oDiv : RCell → RCell → RCell
  | some a, some b => if b = 0 then none else some (a / b)
  | _, _ => none

/-- `a > c` for a cell `a`: `False` when `a` is NaN (IEEE comparison). -/
def oGt (a : RCell) (c : ℝ) : Prop := ∃ x, a = some x ∧ c < x

/-- `a < c` for a cell `a`: `False` when `a` is NaN (IEEE comparison). -/
def oLt (a : RCell) (c : ℝ) : Prop := ∃ x, a = some x ∧ x < c

/-- `a ≤ c` for a cell `a`: `False` when `a` is NaN (IEEE comparison). -/
def oLe (a : RCell) (c : ℝ) : Prop := ∃ x, a = some x ∧ x ≤ c

/-- `a ≥ c` for a cell `a`: `False` when `a` is NaN (IEEE comparison). -/
def oGe (a : RCell) (c : ℝ) : Prop := ∃ x, a = some x ∧ c ≤ x

/-- The source's clipping step `np.where(t > upl, upl, np.where(t < lol, lol, t))`
(upper comparison first; NaN entries fail both comparisons and pass through). -/
noncomputable def clipCell (upl lol : ℝ) (t : RCell) : RCell :=
  if oGt t upl then some upl else if oLt t lol then some lol else t

/-- Pandas `Series.mean()`: skips missing values; NaN when all are missing. -/
noncomputable def pandasMean (xs : List RCell) : RCell :=
  let v := xs.filterMap id
  if v.length = 0 then none else some (v.sum / v.length)

/-- Pandas `Series.std()` (ddof = 1): skips missing values; NaN when fewer than
two values remain (for a single value the 0/0 inside is NaN as well). -/
noncomputable def pandasStd (xs : List RCell) : RCell :=
  let v := xs.filterMap id
  if v.length < 2 then none
  else some (Real.sqrt ((v.map (fun x => (x - v.sum / v.length) ^ 2)).sum /
    ((v.length : ℝ) - 1)))

/-- NumPy `ndarray.mean()`: NaN as soon as any entry is NaN (and on the empty
array). -/
noncomputable def npMean (xs : List RCell) : RCell :=
  if xs.any (·.isNone) ∨ xs.length = 0 then none
  else some ((xs.filterMap id).sum / xs.length)

/-- NumPy `ndarray.std()` (ddof = 0): NaN as soon as any entry is NaN. -/
noncomputable def npStd (xs : List RCell) : RCell :=
  (npMean xs).map (fun m =>
    Real.sqrt (((xs.filterMap id).map (fun x => (x - m) ^ 2)).sum / xs.length))

/-- Maximum of a bare real list (`none` on the empty list). -/
noncomputable def listMax : List ℝ → Option ℝ
  | [] => none
  | h :: t => some (t.foldl max h)

/-- Minimum of a bare real list (`none` on the empty list). -/
noncomputable def listMin : List ℝ → Option ℝ
  | [] => none
  | h :: t => some (t.foldl min h)

/-- NumPy `ndarray.max()`: NaN as soon as any entry is NaN. -/
noncomputable def npMax (xs : List RCell) : RCell :=
  if xs.any (·.isNone) then none else listMax (xs.filterMap id)

/-- NumPy `ndarray.min()`: NaN as soon as any entry is NaN. -/
noncomputable def npMin (xs : List RCell) : RCell :=
  if xs.any (·.isNone) then none else listMin (xs.filterMap id)

/-- The z-score threshold `self.threshold = 2.58`. -/
noncomputable def threshold : ℝ := 2.58

/-- The limit adjustment step `self.step = 0.001`. -/
noncomputable def stepSize : ℝ := 0.001

/-- The working state of the winsorization loop: the clipped series `t`, the
current limits, and the statistics of the most recent iteration. -/
@[ext] structure WState where
  t : List RCell
  upl : ℝ
  lol : ℝ
  mean_t : RCell
  std_t : RCell
  w : List RCell

/-- One iteration body of the loop (baseline.py 63-74): clip `t` to the current
limits, recompute the clipped mean/std, and rescale. -/
noncomputable def iterBody (s : WState) : WState where
  t := s.t.map (clipCell s.upl s.lol)
  upl := s.upl
  lol := s.lol
  mean_t := npMean (s.t.map (clipCell s.upl s.lol))
  std_t := npStd (s.t.map (clipCell s.upl s.lol))
  w := (s.t.map (clipCell s.upl s.lol)).map
    (fun ti => oDiv (oSub ti (npMean (s.t.map (clipCell s.upl s.lol))))
      (npStd (s.t.map (clipCell s.upl s.lol))))

/-- The loop's convergence test `max_w <= threshold and min_w >= -threshold`
(`False` whenever the rescaled series contains a NaN). -/
def converged (w : List RCell) : Prop :=
  oLe (npMax w) threshold ∧ oGe (npMin w) (-threshold)

/-- The limit adjustment (baseline.py 81-84): tighten the upper limit when the
rescaled maximum exceeds the threshold, the lower one when the minimum falls
below its negation. -/
noncomputable def adjustLimits (s : WState) : WState :=
  { s with
    upl := if oGt (npMax s.w) threshold then s.upl - stepSize else s.upl
    lol := if oLt (npMin s.w) (-threshold) then s.lol + stepSize else s.lol }

/-- The `for i in range(1, 10001)` loop with its early `break`: run one body,
stop on convergence, otherwise adjust the limits and continue with one unit of
fuel less.  When the fuel runs out the state of the last iteration — including
its final limit adjustment — is returned with no convergence signal, exactly
as in the source. -/
noncomputable def loopGo : ℕ → WState → WState
  | 0, s => s
  | n + 1, s =>
    if converged (iterBody s).w then iterBody s
    else loopGo n (adjustLimits (iterBody s))

/-- The initial z-scores `(x - mean) / std` from the raw pandas moments. -/
noncomputable def zSeries (xs : List RCell) : List RCell :=
  xs.map (fun x => oDiv (oSub x (pandasMean xs)) (pandasStd xs))

/-- The loop's starting state: `t = z`, limits at `±2.58`.  The statistics
fields are placeholders — the loop body always runs at least once (fuel
10000), overwriting them before they can be observed, just as `w_var`,
`mean_t`, `std_t` first come into existence inside the Python loop. -/
noncomputable def initState (xs : List RCell) : WState where
  t := zSeries xs
  upl := threshold
  lol := -threshold
  mean_t := none
  std_t := none
  w := zSeries xs

/-- What `winsorize` stores (baseline.py 86-91): the rescaled series `w_var`,
the clipped moments, the final limits, plus the raw pandas moments that the
frozen `BaselineParameterSet` carries. -/
@[ext] structure WResult where
  w : List RCell
  mean_t : RCell
  std_t : RCell
  upl : ℝ
  lol : ℝ
  mean : RCell
  std : RCell

/-- `winsorize` for one measure column. -/
noncomputable def winsorize (xs : List RCell) : WResult where
  w := (loopGo 10000 (initState xs)).w
  mean_t := (loopGo 10000 (initState xs)).mean_t
  std_t := (loopGo 10000 (initState xs)).std_t
  upl := (loopGo 10000 (initState xs)).upl
  lol := (loopGo 10000 (initState xs)).lol
  mean := pandasMean xs
  std := pandasStd xs

/-- One output row of `restandardize_var`: z-score, truncated value,
truncation flag, re-standardized score. -/
structure RRow where
  zc : RCell
  tc : RCell
  flagtc : ℕ
  wc : RCell

/-- The per-row computation of `restandardize_var`.  The source sets the flag
to 1 where `tc.notna() & (tc < lol)` and then to 2 where `tc > upl`
(overriding), which is the priority encoded here; `tc < lol` already entails
`tc` is not missing. -/
noncomputable def rRow (mean_var std_var : RCell) (upl_var lol_var : ℝ)
    (var_mean_t var_std_t : RCell) (x : RCell) : RRow :=
  let zc := oDiv (oSub x mean_var) std_var
  let flag : ℕ := if oGt zc upl_var then 2 else if oLt zc lol_var then 1 else 0
  let tc : RCell := if flag = 2 then some upl_var else if flag = 1 then some lol_var else zc
  ⟨zc, tc, flag, oDiv (oSub tc var_mean_t) var_std_t⟩

/-- `restandardize_var` (current.py): standardize with the supplied moments,
truncate against the frozen limits with a tri-state flag, re-standardize with
the frozen truncated moments.  The final `sort_values('provfs')` is a pure
reordering of rows by the facility key and is omitted: rows are kept in input
order here. -/
noncomputable def restandardize_var (xs : List RCell) (mean_var std_var : RCell)
    (upl_var lol_var : ℝ) (var_mean_t var_std_t : RCell) : List RRow :=
  xs.map (rRow mean_var std_var upl_var lol_var var_mean_t var_std_t)

end Winsorization

/-! ## Theorems on the rational components -/

/-- C1: evaluating `assign_star_ranks` on the composite-score column
`[NaN, 1, 2, 3, 4, 5]` (quintile values 1.4 / 2.2 / 3.8 / 4.6).  The source's
`choices[1:]` drops the NaN entry of `choices = [nan,1,2,3,4,5]`, misaligning
`np.select`: a missing composite score receives star rank 1 (not a missing
rank), a score at or below the 10th-percentile value receives rank 2, and
every bucket is shifted one rank up, contradicting the claimed assignment
`[missing, 1, 2, 3, 4, 5]`. -/
theorem c1_star_ranks_shift_missing_to_one :
    assign_star_ranks [none, some 1, some 2, some 3, some 4, some 5] =
      [1, 2, 3, 4, 5, 5] := by
  norm_num [assign_star_ranks, npPercentile, List.insertionSort, List.orderedInsert,
    show Int.toNat 1 = 1 from rfl, show Int.toNat 2 = 2 from rfl,
    show Int.toNat 3 = 3 from rfl, show Int.toNat 4 = 4 from rfl]

/-- C2: `calculate_final_score` never produces a composite score: its
`np.select` call receives four conditions but five choices, so it raises
`ValueError` on every input before any weighted combination is evaluated. -/
theorem c2_final_score_always_valueerror (rows : List ScoreRow) :
    calculate_final_score rows =
      Except.error "list of cases must be same length as list of conditions" := by
  simp [calculate_final_score, npSelect]

/-- The strict and the equality rank counts together never exceed the column
length (no value is simultaneously below and equal to `x`). -/
theorem countP_lt_add_countP_eq_le_length (xs : List ℚ) (x : ℚ) :
    xs.countP (fun y => decide (y < x)) + xs.countP (fun y => decide (y = x)) ≤
      xs.length := by
  induction xs with
  | nil => simp
  | cons y t ih =>
    simp only [List.countP_cons, List.length_cons]
    by_cases h1 : y < x <;> by_cases h2 : y = x
    · exact absurd h1 (by simp [h2])
    · simp [h1, h2]
      omega
    · simp [h1, h2]
      omega
    · simp [h1, h2]
      omega

/-- Counting over a constant column. -/
theorem countP_replicate (p : ℚ → Bool) (n : ℕ) (a : ℚ) :
    (List.replicate n a).countP p = if p a then n else 0 := by
  induction n with
  | zero => simp
  | succ n ih =>
    by_cases h : p a <;> simp [List.replicate_succ, List.countP_cons, ih, h]

/-- Every value occurring in the column counts itself among its equals. -/
theorem one_le_countP_eq (xs : List ℚ) (x : ℚ) (hx : x ∈ xs) :
    1 ≤ xs.countP (fun y => decide (y = x)) := by
  have h := (List.countP_pos_iff (p := fun y => decide (y = x)) (l := xs)).2
    ⟨x, hx, by simp⟩
  omega

/-- C6 (amended): on a population of at most 199 rows every output percentile
of `calculate_percentiles` lies strictly between 0 and 100 (in fact within
`[0.5, 99.5]`), keeping the inverse-normal transform finite.  The bound on the
population size is forced by the hard-coded bucket count 200 of the source's
`(rank_index + 1) / 200 * 100`. -/
theorem c6_percentile_range_amended (xs : List ℚ) (hn : xs.length ≤ 199) :
    ∀ p ∈ calculate_percentiles xs, 0 < p ∧ p < 100 ∧ probitFinite (p / 100) := by
  intro p hp
  simp only [calculate_percentiles, List.mem_map] at hp
  obtain ⟨x, hx, rfl⟩ := hp
  have hce : 1 ≤ xs.countP (fun y => decide (y = x)) := one_le_countP_eq xs x hx
  have hsum : xs.countP (fun y => decide (y < x)) +
      xs.countP (fun y => decide (y = x)) ≤ xs.length :=
    countP_lt_add_countP_eq_le_length xs x
  set cl : ℕ := xs.countP (fun y => decide (y < x)) with hcl
  set ce : ℕ := xs.countP (fun y => decide (y = x)) with hceq
  have hrank_lo : (1 : ℚ) ≤ avgRank xs x := by
    have h1 : (1 : ℚ) ≤ (ce : ℚ) := by exact_mod_cast hce
    simp only [avgRank, ← hcl, ← hceq]
    have h0 : (0 : ℚ) ≤ (cl : ℚ) := by positivity
    linarith
  have hrank_hi : avgRank xs x ≤ (xs.length : ℚ) := by
    have h1 : (1 : ℚ) ≤ (ce : ℚ) := by exact_mod_cast hce
    have h2 : (cl : ℚ) + (ce : ℚ) ≤ (xs.length : ℚ) := by exact_mod_cast hsum
    simp only [avgRank, ← hcl, ← hceq]
    linarith
  have hri_lo : (0 : ℤ) ≤ rankIndex xs x := by
    rw [rankIndex]
    exact Int.le_floor.2 (by push_cast; linarith)
  have hri_hi : ((rankIndex xs x : ℚ)) ≤ (xs.length : ℚ) - 1 := by
    rw [rankIndex]
    calc ((Int.floor (avgRank xs x - 1) : ℚ)) ≤ avgRank xs x - 1 := Int.floor_le _
      _ ≤ (xs.length : ℚ) - 1 := by linarith
  have hn' : ((xs.length : ℚ)) ≤ 199 := by exact_mod_cast hn
  have hri_lo' : (0 : ℚ) ≤ ((rankIndex xs x : ℚ)) := by exact_mod_cast hri_lo
  have hp0 : (0 : ℚ) < ((rankIndex xs x : ℚ) + 1) / 200 * 100 := by linarith
  have hp1 : ((rankIndex xs x : ℚ) + 1) / 200 * 100 < 100 := by linarith
  refine ⟨hp0, hp1, ?_⟩
  simp only [probitFinite]
  exact ⟨div_pos hp0 (by norm_num), (div_lt_one (by norm_num)).2 hp1⟩

/-- C6 (counterexample): on a population of 200 rows (199 ties below a single
top value) the top value's average rank is 200, so its output percentile is
`(199 + 1) / 200 * 100 = 100` — not strictly below 100, and `norm.ppf(1)` is
infinite.  This refutes the claim for arbitrary populations. -/
theorem c6_percentile_counterexample :
    ¬ (∀ p ∈ calculate_percentiles (List.replicate 199 (0 : ℚ) ++ [1]),
        0 < p ∧ p < 100 ∧ probitFinite (p / 100)) := by
  intro h
  have hcl : (List.replicate 199 (0 : ℚ) ++ [1]).countP (fun y => decide (y < 1)) = 199 := by
    norm_num [List.countP_append, countP_replicate]
  have hce : (List.replicate 199 (0 : ℚ) ++ [1]).countP (fun y => decide (y = 1)) = 1 := by
    norm_num [List.countP_append, countP_replicate]
  have hmem : (100 : ℚ) ∈ calculate_percentiles (List.replicate 199 (0 : ℚ) ++ [1]) := by
    simp only [calculate_percentiles]
    refine List.mem_map.2 ⟨1, List.mem_append.2 (Or.inr (by simp)), ?_⟩
    rw [rankIndex, avgRank, hcl, hce]
    norm_num
  exact absurd (h 100 hmem).2.1 (by norm_num)

/-- C6 (witness): the amended percentile-range theorem applied to the concrete
two-row population `[1, 2]`. -/
theorem c6_percentile_witness :
    [(1 : ℚ), 2].length ≤ 199 ∧
      ∀ p ∈ calculate_percentiles [(1 : ℚ), 2],
        0 < p ∧ p < 100 ∧ probitFinite (p / 100) :=
  ⟨by decide, c6_percentile_range_amended [(1 : ℚ), 2] (by decide)⟩

/-- C7: on the spec's scenario with all five star ranks populated
(`\x7b1:[10,20], 2:[21,30], 3:[31,70], 4:[71,90], 5:[91,100]\x7d`) the cutoffs are
the midpoints 20.5, 30.5, 70.5, 90.5; but when a star rank is empty the
computation dies in the positional `.loc` lookup with a bare `KeyError`
(an out-of-range lookup), not a descriptive domain error. -/
theorem c7_cutoffs_eval :
    calculate_cutoffs
        [(1, 10), (1, 20), (2, 21), (2, 30), (3, 31), (3, 70),
         (4, 71), (4, 90), (5, 91), (5, 100)] =
      Except.ok (41 / 2, 61 / 2, 141 / 2, 181 / 2) ∧
    calculate_cutoffs [(1, 10), (2, 20), (3, 30), (4, 40)] =
      Except.error "KeyError" := by
  constructor <;>
    norm_num [calculate_cutoffs, groupAgg, groupKeys, locRow, List.dedup,
      List.dedup_cons_of_mem, List.dedup_cons_of_not_mem, List.insertionSort,
      List.orderedInsert, List.filterMap_cons, min_def, max_def, Except.bind,
      bind, pure, Except.pure]

/-- The guarded row mean of `calculate_domain_scores` (arity 4) agrees with the
spec's domain-score rule. -/
theorem domain4_eq_spec (a b c d : Cell) :
    (if mInd a + mInd b + mInd c + mInd d = 4 then none else rowMean [a, b, c, d]) =
      specDomainScore [a, b, c, d] := by
  cases a <;> cases b <;> cases c <;> cases d <;>
    norm_num [mInd, rowMean, specDomainScore] <;> intros <;> simp_all

/-- The guarded row mean of `calculate_domain_scores` (arity 2) agrees with the
spec's domain-score rule. -/
theorem domain2_eq_spec (a b : Cell) :
    (if mInd a + mInd b = 2 then none else rowMean [a, b]) =
      specDomainScore [a, b] := by
  cases a <;> cases b <;> norm_num [mInd, rowMean, specDomainScore] <;> intros <;>
    simp_all

/-- C8: for every facility, each of the four domain scores computed by
`calculate_domain_scores` is missing iff all of that domain's constituent
normalized measures are missing, and otherwise equals the arithmetic mean of
the non-missing constituents only — i.e. the code agrees with the spec's
domain-score rule on every domain. -/
theorem c8_domain_scores_match_spec (r : NormRow) :
    calculate_domain_scores r =
      (specDomainScore [r.n_var1_f, r.n_var2_f, r.n_var3_f, r.n_var4_f],
       specDomainScore [r.w_star_var5_f, r.w_star_var6_f],
       specDomainScore [r.w_star_var7_f, r.w_star_var8_f],
       specDomainScore [r.n_var9_f, r.w_star_var10_f]) := by
  simp only [calculate_domain_scores, domain4_eq_spec, domain2_eq_spec]

/-! ## Theorems on the winsorization calibrator and the current-period applier -/

section WinsorizationProofs

open scoped Classical

/-- Clipping a missing value is a no-op (NaN fails both comparisons). -/
theorem clipCell_none (u l : ℝ) : clipCell u l none = none := by
  simp [clipCell, oGt, oLt]

/-- Clipping a present value, written with bare real comparisons. -/
theorem clipCell_some (u l v : ℝ) :
    clipCell u l (some v) = if u < v then some u else if v < l then some l else some v := by
  simp [clipCell, oGt, oLt]

/-- Re-clipping with tighter, well-formed limits collapses to a single clip
with the tighter limits. -/
theorem clipCell_clipCell (x : RCell) (u0 l0 u1 l1 : ℝ) (h0 : l0 ≤ l1)
    (h1 : u1 ≤ u0) (h2 : l1 ≤ u1) :
    clipCell u1 l1 (clipCell u0 l0 x) = clipCell u1 l1 x := by
  cases x with
  | none => simp [clipCell_none]
  | some v =>
    by_cases hA : u0 < v
    · rw [show clipCell u0 l0 (some v) = some u0 by rw [clipCell_some, if_pos hA]]
      rw [clipCell_some, clipCell_some, if_pos (lt_of_le_of_lt h1 hA)]
      by_cases hB : u1 < u0
      · rw [if_pos hB]
      · rw [if_neg hB, if_neg (by linarith : ¬ u0 < l1)]
        exact congrArg some (by linarith)
    · by_cases hC : v < l0
      · rw [show clipCell u0 l0 (some v) = some l0 by
          rw [clipCell_some, if_neg hA, if_pos hC]]
        rw [clipCell_some, clipCell_some,
          if_neg (by linarith : ¬ u1 < l0),
          if_neg (by linarith : ¬ u1 < v), if_pos (by linarith : v < l1)]
        by_cases hD : l0 < l1
        · rw [if_pos hD]
        · rw [if_neg hD]
          exact congrArg some (by linarith)
      · rw [show clipCell u0 l0 (some v) = some v by
          rw [clipCell_some, if_neg hA, if_neg hC]]

/-- C10: a row whose raw measure value is missing keeps truncation flag 0 and
gets a missing re-standardized score: a missing value propagates as a
first-class value through `restandardize_var` and is never clipped to a
limit. -/
theorem c10_missing_flag_zero (xs : List RCell) (m s : RCell) (u l : ℝ)
    (mt st : RCell) (i : ℕ) (h : xs[i]? = some none) :
    ((restandardize_var xs m s u l mt st)[i]?).map
      (fun r => (r.flagtc, r.wc)) = some (0, none) := by
  simp [restandardize_var, List.getElem?_map, h, rRow, oSub, oDiv, oGt, oLt]

/-- C10 (witness): the missing-value row theorem at the concrete one-row
input `[NaN]` with frozen parameters `mean 0, std 1, limits ±2.58, truncated
moments (0, 1)`. -/
theorem c10_missing_flag_witness :
    ([none] : List RCell)[0]? = some none ∧
      ((restandardize_var [none] (some 0) (some 1) 2.58 (-2.58) (some 0)
          (some 1))[0]?).map (fun r => (r.flagtc, r.wc)) = some (0, none) :=
  ⟨rfl, c10_missing_flag_zero [none] (some 0) (some 1) 2.58 (-2.58) (some 0)
    (some 1) 0 rfl⟩

/-- The adjustment step never raises the upper limit. -/
theorem adjustLimits_upl_le (s : WState) : (adjustLimits s).upl ≤ s.upl := by
  simp only [adjustLimits]
  split_ifs <;> simp [stepSize] <;> norm_num

/-- The adjustment step never lowers the lower limit. -/
theorem adjustLimits_lol_ge (s : WState) : s.lol ≤ (adjustLimits s).lol := by
  simp only [adjustLimits]
  split_ifs <;> simp [stepSize] <;> norm_num

/-- Across the whole loop the upper limit only decreases. -/
theorem loopGo_upl_le (n : ℕ) (s : WState) : (loopGo n s).upl ≤ s.upl := by
  induction n generalizing s with
  | zero => simp [loopGo]
  | succ n ih =>
    rw [loopGo]
    split_ifs with h
    · exact le_refl _
    · calc (loopGo n (adjustLimits (iterBody s))).upl
          ≤ (adjustLimits (iterBody s)).upl := ih _
        _ ≤ (iterBody s).upl := adjustLimits_upl_le _
        _ = s.upl := rfl

/-- Across the whole loop the lower limit only increases. -/
theorem loopGo_lol_ge (n : ℕ) (s : WState) : s.lol ≤ (loopGo n s).lol := by
  induction n generalizing s with
  | zero => simp [loopGo]
  | succ n ih =>
    rw [loopGo]
    split_ifs with h
    · exact le_refl _
    · calc s.lol = (iterBody s).lol := rfl
        _ ≤ (adjustLimits (iterBody s)).lol := adjustLimits_lol_ge _
        _ ≤ (loopGo n (adjustLimits (iterBody s))).lol := ih _

/-- Loop invariant for the round-trip theorem: the working series is the
initial z-series clipped (at most once, with well-formed limits at least as
wide as the current ones), or still untouched. -/
def ClipInv (z : List RCell) (s : WState) : Prop :=
  s.t = z ∨ ∃ l0 u0, l0 ≤ s.lol ∧ s.upl ≤ u0 ∧ l0 ≤ u0 ∧ s.t = z.map (clipCell u0 l0)

/-- Exit analysis of the winsorization loop: if the loop's result converged
(which forces a `break` exit) and its final limits are well-formed, then the
final clipped series is the initial z-series clipped once with the final
limits, and the stored statistics and rescaled series are those of that
series. -/
theorem loopGo_spec (z : List RCell) :
    ∀ (n : ℕ) (s : WState), ClipInv z s → (¬ converged s.w ∨ 0 < n) →
      converged (loopGo n s).w → (loopGo n s).lol ≤ (loopGo n s).upl →
      ((loopGo n s).t = z.map (clipCell (loopGo n s).upl (loopGo n s).lol) ∧
       (loopGo n s).mean_t = npMean (loopGo n s).t ∧
       (loopGo n s).std_t = npStd (loopGo n s).t ∧
       (loopGo n s).w = (loopGo n s).t.map
         (fun ti => oDiv (oSub ti (loopGo n s).mean_t) (loopGo n s).std_t)) := by
  intro n
  induction n with
  | zero =>
    intro s _ hstart hcv _
    rcases hstart with h | h
    · rw [loopGo] at hcv
      exact absurd hcv h
    · exact absurd h (lt_irrefl 0)
  | succ n ih =>
    intro s hInv hstart hcv hlim
    rw [loopGo] at hcv hlim ⊢
    by_cases hbr : converged (iterBody s).w
    · rw [if_pos hbr] at hcv hlim ⊢
      refine ⟨?_, rfl, rfl, rfl⟩
      show s.t.map (clipCell s.upl s.lol) = z.map (clipCell s.upl s.lol)
      rcases hInv with ht | ⟨l0, u0, hl0, hu0, hlu0, ht⟩
      · rw [ht]
      · have hlu : s.lol ≤ s.upl := hlim
        rw [ht, List.map_map]
        refine List.map_congr_left ?_
        intro a _
        simp only [Function.comp_apply]
        exact clipCell_clipCell a u0 l0 s.upl s.lol hl0 hu0 hlu
    · rw [if_neg hbr] at hcv hlim ⊢
      have hlu : s.lol ≤ s.upl := by
        have h1 : s.lol ≤ (adjustLimits (iterBody s)).lol :=
          adjustLimits_lol_ge (iterBody s)
        have h2 : (adjustLimits (iterBody s)).upl ≤ s.upl :=
          adjustLimits_upl_le (iterBody s)
        have h3 := loopGo_lol_ge n (adjustLimits (iterBody s))
        have h4 := loopGo_upl_le n (adjustLimits (iterBody s))
        linarith
      refine ih (adjustLimits (iterBody s)) ?_ (Or.inl hbr) hcv hlim
      right
      refine ⟨s.lol, s.upl, adjustLimits_lol_ge (iterBody s),
        adjustLimits_upl_le (iterBody s), hlu, ?_⟩
      show s.t.map (clipCell s.upl s.lol) = z.map (clipCell s.upl s.lol)
      rcases hInv with ht | ⟨l0, u0, hl0, hu0, hlu0, ht⟩
      · rw [ht]
      · rw [ht, List.map_map]
        refine List.map_congr_left ?_
        intro a _
        simp only [Function.comp_apply]
        exact clipCell_clipCell a u0 l0 s.upl s.lol hl0 hu0 hlu

/-- The re-standardized score of one row equals a single clip of the z-score
followed by the frozen-moment rescaling (the tri-state flag of the source
encodes exactly the clip). -/
theorem rRow_wc_eq (m s : RCell) (u l : ℝ) (mt st : RCell) (x : RCell) :
    (rRow m s u l mt st x).wc =
      oDiv (oSub (clipCell u l (oDiv (oSub x m) s)) mt) st := by
  by_cases h2 : oGt (oDiv (oSub x m) s) u
  · simp [rRow, clipCell, h2]
  · by_cases h1 : oLt (oDiv (oSub x m) s) l
    · simp [rRow, clipCell, h2, h1]
    · simp [rRow, clipCell, h2, h1]

/-- C4: when the calibration converged (its stored rescaled series satisfies
the loop's own convergence test, which forces a `break` exit) and its final
limits are well-formed (`lol ≤ upl`; they start at `±2.58` and only move
inward step by step), re-running `restandardize_var` with the frozen baseline
mean, std, limits and truncated moments on the same raw values reproduces the
baseline winsorized-standardized series exactly: the single clip of the
initial z-score at the final limits equals the iteratively clipped series. -/
theorem c4_roundtrip (xs : List RCell)
    (hcv : converged (winsorize xs).w)
    (hlim : (winsorize xs).lol ≤ (winsorize xs).upl) :
    (restandardize_var xs (winsorize xs).mean (winsorize xs).std
        (winsorize xs).upl (winsorize xs).lol (winsorize xs).mean_t
        (winsorize xs).std_t).map RRow.wc = (winsorize xs).w := by
  have hcv' : converged (loopGo 10000 (initState xs)).w := hcv
  have hlim' : (loopGo 10000 (initState xs)).lol ≤
      (loopGo 10000 (initState xs)).upl := hlim
  obtain ⟨hT, _, _, hW⟩ := loopGo_spec (zSeries xs) 10000 (initState xs)
    (Or.inl rfl) (Or.inr (by norm_num)) hcv' hlim'
  show (restandardize_var xs (pandasMean xs) (pandasStd xs)
      (loopGo 10000 (initState xs)).upl (loopGo 10000 (initState xs)).lol
      (loopGo 10000 (initState xs)).mean_t
      (loopGo 10000 (initState xs)).std_t).map RRow.wc =
    (loopGo 10000 (initState xs)).w
  rw [hW, hT, restandardize_var, List.map_map, List.map_map, zSeries,
    List.map_map]
  refine List.map_congr_left ?_
  intro x _
  exact rRow_wc_eq (pandasMean xs) (pandasStd xs)
    (loopGo 10000 (initState xs)).upl (loopGo 10000 (initState xs)).lol
    (loopGo 10000 (initState xs)).mean_t (loopGo 10000 (initState xs)).std_t x

/-- C5 (amended): the frozen limits need not be opposite, but they start at
`±2.58` and move only inward: the final upper limit is at most 2.58 and the
final lower limit at least −2.58.  Their magnitudes can drop strictly below
the threshold (see the counterexample), contrary to the claimed invariant. -/
theorem c5_limits_within_threshold (xs : List RCell) :
    (winsorize xs).upl ≤ 2.58 ∧ -2.58 ≤ (winsorize xs).lol := by
  constructor
  · have h := loopGo_upl_le 10000 (initState xs)
    simpa [winsorize, initState, threshold] using h
  · have h := loopGo_lol_ge 10000 (initState xs)
    simpa [winsorize, initState, threshold] using h

/-! ### Evaluation of `winsorize` on concrete populations

The population `[1,1,1,1,1,1,1,1,0]` (8 ones, 1 zero) never converges: its
shape — eight equal values above a single outlier — is scale-invariant under
clipping, its rescaled minimum is `-2√2 < -2.58` at every iteration, so the
lower limit increases by 0.001 forever, collapses every value once it passes
`1/3`, and from then on the rescaled series is NaN (0/0), freezing the state
until the fuel runs out.  The lemmas below replay the three phases. -/

/-- `filterMap id` over a constant present column with one more present cell. -/
theorem filterMap_id_rep_app (k : ℕ) (a b : ℝ) :
    (List.replicate k (some a) ++ [some b]).filterMap id =
      List.replicate k a ++ [b] := by
  induction k with
  | zero => simp
  | succ k ih => simpa [List.replicate_succ] using ih

/-- No missing entries in the shape `replicate k (some a) ++ [some b]`. -/
theorem any_isNone_rep_app (k : ℕ) (a b : ℝ) :
    ((List.replicate k (some a) ++ [some b]).any (fun o => o.isNone)) = false := by
  induction k with
  | zero => simp
  | succ k ih => simpa [List.replicate_succ] using ih

/-- Sum over the shape `replicate k a ++ [b]`. -/
theorem sum_rep_app (k : ℕ) (a b : ℝ) :
    (List.replicate k a ++ [b]).sum = k * a + b := by
  simp [List.sum_append, List.sum_replicate, nsmul_eq_mul]

/-- NumPy mean of the shape `replicate k (some a) ++ [some b]`. -/
theorem npMean_rep_app (k : ℕ) (a b : ℝ) :
    npMean (List.replicate k (some a) ++ [some b]) =
      some ((k * a + b) / (k + 1)) := by
  rw [npMean]
  rw [if_neg (by simp [any_isNone_rep_app])]
  rw [filterMap_id_rep_app, sum_rep_app]
  congr 1
  push_cast [List.length_append, List.length_replicate, List.length_singleton]
  ring

/-- NumPy std (ddof 0) of the shape `replicate k (some a) ++ [some b]`. -/
theorem npStd_rep_app (k : ℕ) (a b : ℝ) :
    npStd (List.replicate k (some a) ++ [some b]) =
      some (Real.sqrt ((k * (a - (k * a + b) / (k + 1)) ^ 2 +
        (b - (k * a + b) / (k + 1)) ^ 2) / (k + 1))) := by
  rw [npStd, npMean_rep_app, Option.map_some']
  congr 1
  rw [filterMap_id_rep_app, List.map_append, List.map_replicate,
    List.map_singleton, sum_rep_app]
  congr 1
  push_cast [List.length_append, List.length_replicate, List.length_singleton]
  ring

/-- A fold of `max` over a constant run capped by a smaller tail element. -/
theorem foldl_max_fix (k : ℕ) (x y : ℝ) (h : y ≤ x) :
    (List.replicate k x ++ [y]).foldl max x = x := by
  induction k with
  | zero => simp [max_eq_left h]
  | succ k ih =>
    rw [List.replicate_succ, List.cons_append, List.foldl_cons, max_self]
    exact ih

/-- A fold of `min` over a constant run ended by a smaller tail element. -/
theorem foldl_min_fix (k : ℕ) (x y : ℝ) (h : y ≤ x) :
    (List.replicate k x ++ [y]).foldl min x = y := by
  induction k with
  | zero => simp [min_eq_right h]
  | succ k ih =>
    rw [List.replicate_succ, List.cons_append, List.foldl_cons, min_self]
    exact ih

/-- NumPy max of the shape `replicate (k+1) (some x) ++ [some y]`, `y ≤ x`. -/
theorem npMax_rep_app (k : ℕ) (x y : ℝ) (h : y ≤ x) :
    npMax (List.replicate (k + 1) (some x) ++ [some y]) = some x := by
  rw [npMax, if_neg (by simp [any_isNone_rep_app]), filterMap_id_rep_app,
    List.replicate_succ, List.cons_append, listMax]
  exact congrArg some (foldl_max_fix k x y h)

/-- NumPy min of the shape `replicate (k+1) (some x) ++ [some y]`, `y ≤ x`. -/
theorem npMin_rep_app (k : ℕ) (x y : ℝ) (h : y ≤ x) :
    npMin (List.replicate (k + 1) (some x) ++ [some y]) = some y := by
  rw [npMin, if_neg (by simp [any_isNone_rep_app]), filterMap_id_rep_app,
    List.replicate_succ, List.cons_append, listMin]
  exact congrArg some (foldl_min_fix k x y h)

/-- NumPy std of eight copies of `a` and one `b < a`: the shape is
scale-free, `std = 2√2·(a−b)/9`. -/
theorem npStd_eight_one (a b : ℝ) (hab : b < a) :
    npStd (List.replicate 8 (some a) ++ [some b]) =
      some (2 * Real.sqrt 2 * (a - b) / 9) := by
  have h2 : Real.sqrt 2 ^ 2 = 2 := Real.sq_sqrt (by norm_num)
  have hd : (0 : ℝ) ≤ a - b := by linarith
  have hnn : (0 : ℝ) ≤ 2 * Real.sqrt 2 * (a - b) / 9 := by
    have := Real.sqrt_nonneg 2
    positivity
  rw [npStd_rep_app]
  congr 1
  have harg : ((8 : ℕ) * (a - ((8 : ℕ) * a + b) / ((8 : ℕ) + 1)) ^ 2 +
      (b - ((8 : ℕ) * a + b) / ((8 : ℕ) + 1)) ^ 2) / ((8 : ℕ) + 1) =
      (2 * Real.sqrt 2 * (a - b) / 9) ^ 2 := by
    push_cast
    linear_combination (-(4 * (a - b) ^ 2) / 81) * h2
  rw [harg, Real.sqrt_sq hnn]

/-- The rescaled series of eight copies of `a` over one `b < a`:
`1/(2√2) = √2/4` at the eight, `−2√2` at the outlier — independent of scale. -/
theorem w_eight_one (a b : ℝ) (hab : b < a) :
    (List.replicate 8 (some a) ++ [some b]).map
      (fun ti => oDiv (oSub ti (npMean (List.replicate 8 (some a) ++ [some b])))
        (npStd (List.replicate 8 (some a) ++ [some b]))) =
      List.replicate 8 (some (Real.sqrt 2 / 4)) ++ [some (-(2 * Real.sqrt 2))] := by
  have h2 : Real.sqrt 2 ^ 2 = 2 := Real.sq_sqrt (by norm_num)
  have hs2 : (0 : ℝ) < Real.sqrt 2 := Real.sqrt_pos.2 (by norm_num)
  have hd : (0 : ℝ) < a - b := by linarith
  have hstdpos : (0 : ℝ) < 2 * Real.sqrt 2 * (a - b) / 9 := by positivity
  rw [npMean_rep_app, npStd_eight_one a b hab, List.map_append, List.map_replicate,
    List.map_singleton]
  congr 1
  · congr 1
    show oDiv (some (a - ((8 : ℕ) * a + b) / ((8 : ℕ) + 1)))
        (some (2 * Real.sqrt 2 * (a - b) / 9)) = some (Real.sqrt 2 / 4)
    rw [oDiv, if_neg (ne_of_gt hstdpos)]
    congr 1
    rw [div_eq_iff (ne_of_gt hstdpos)]
    push_cast
    linear_combination (-((a - b) / 18)) * h2
  · congr 1
    show oDiv (some (b - ((8 : ℕ) * a + b) / ((8 : ℕ) + 1)))
        (some (2 * Real.sqrt 2 * (a - b) / 9)) = some (-(2 * Real.sqrt 2))
    rw [oDiv, if_neg (ne_of_gt hstdpos)]
    congr 1
    rw [div_eq_iff (ne_of_gt hstdpos)]
    push_cast
    linear_combination (4 * (a - b) / 9) * h2

/-- The working state during phase A of the failing run: eight values at `1/3`,
one at `b`, upper limit still `2.58`, lower limit `L`. -/
noncomputable def stA (b L : ℝ) (mt st : RCell) (w0 : List RCell) : WState where
  t := List.replicate 8 (some (1 / 3)) ++ [some b]
  upl := threshold
  lol := L
  mean_t := mt
  std_t := st
  w := w0

/-- The frozen terminal state of the failing run: all nine values collapsed
onto the final lower limit `L`, rescaled series NaN everywhere (0/0), limits
never moving again. -/
noncomputable def sbState (L : ℝ) : WState where
  t := List.replicate 8 (some L) ++ [some L]
  upl := threshold
  lol := L
  mean_t := some L
  std_t := some 0
  w := List.replicate 8 none ++ [none]

/-- Clipping during phase A: the eight values at `1/3` pass through, the low
value is raised onto the lower limit. -/
theorem clip_map_A (b L : ℝ) (hb : b < L) (hL3 : L < 1 / 3) :
    (List.replicate 8 (some (1 / 3 : ℝ)) ++ [some b]).map (clipCell threshold L) =
      List.replicate 8 (some (1 / 3 : ℝ)) ++ [some L] := by
  rw [List.map_append, List.map_replicate, List.map_singleton]
  congr 2
  · rw [clipCell_some, if_neg (by rw [threshold]; norm_num),
      if_neg (not_lt.2 (le_of_lt hL3))]
  · rw [clipCell_some, if_neg (by rw [threshold]; norm_num; linarith),
      if_pos hb]

/-- A rescaled series whose minimum exists and falls below `−2.58` fails the
convergence test. -/
theorem not_converged_of_min (w : List RCell) (y : ℝ) (hy : npMin w = some y)
    (h : y < -threshold) : ¬ converged w := by
  intro hc
  obtain ⟨x, hx, hxle⟩ := hc.2
  rw [hy] at hx
  obtain rfl : y = x := Option.some.inj hx
  linarith

/-- A rescaled series whose maximum is NaN fails the convergence test. -/
theorem not_converged_of_none (w : List RCell) (h : npMax w = none) :
    ¬ converged w := by
  intro hc
  obtain ⟨x, hx, _⟩ := hc.1
  rw [h] at hx
  exact Option.noConfusion hx

/-- Evaluating the limit adjustment when only the lower limit is violated. -/
theorem adjustLimits_onlyLow (s : WState) (x y : ℝ) (hx : npMax s.w = some x)
    (hy : npMin s.w = some y) (hxle : x ≤ threshold) (hylt : y < -threshold) :
    adjustLimits s = { s with lol := s.lol + stepSize } := by
  have h1 : (if oGt (npMax s.w) threshold then s.upl - stepSize else s.upl) =
      s.upl := by
    rw [if_neg]
    intro hg
    obtain ⟨x', hx', hlt⟩ := hg
    rw [hx] at hx'
    obtain rfl : x = x' := Option.some.inj hx'
    linarith
  have h2 : (if oLt (npMin s.w) (-threshold) then s.lol + stepSize else s.lol) =
      s.lol + stepSize := if_pos ⟨y, hy, hylt⟩
  rw [adjustLimits, h1, h2]

/-- Evaluating the limit adjustment on an all-NaN rescaled series: nothing
moves. -/
theorem adjustLimits_nan (s : WState) (hx : npMax s.w = none)
    (hy : npMin s.w = none) : adjustLimits s = s := by
  have h1 : (if oGt (npMax s.w) threshold then s.upl - stepSize else s.upl) =
      s.upl := by
    rw [if_neg]
    intro hg
    obtain ⟨x', hx', _⟩ := hg
    rw [hx] at hx'
    exact Option.noConfusion hx'
  have h2 : (if oLt (npMin s.w) (-threshold) then s.lol + stepSize else s.lol) =
      s.lol := by
    rw [if_neg]
    intro hg
    obtain ⟨y', hy', _⟩ := hg
    rw [hy] at hy'
    exact Option.noConfusion hy'
  rw [adjustLimits, h1, h2]

/-- One full phase-A iteration: the loop does not converge (the rescaled
minimum is `−2√2 < −2.58`), the upper limit stays (the rescaled maximum is
`√2/4 ≤ 2.58`), the lower limit gains one step. -/
theorem loopGo_stepA (n : ℕ) (b L : ℝ) (mt st : RCell) (w0 : List RCell)
    (hb : b < L) (hL3 : L < 1 / 3) :
    loopGo (n + 1) (stA b L mt st w0) =
      loopGo n (stA L (L + stepSize)
        (some (((8 : ℕ) * (1 / 3) + L) / ((8 : ℕ) + 1)))
        (some (2 * Real.sqrt 2 * (1 / 3 - L) / 9))
        (List.replicate 8 (some (Real.sqrt 2 / 4)) ++
          [some (-(2 * Real.sqrt 2))])) := by
  have h2 : Real.sqrt 2 ^ 2 = 2 := Real.sq_sqrt (by norm_num)
  have hs2 : (0 : ℝ) < Real.sqrt 2 := Real.sqrt_pos.2 (by norm_num)
  have hIter : iterBody (stA b L mt st w0) =
      ⟨List.replicate 8 (some (1 / 3 : ℝ)) ++ [some L], threshold, L,
        some (((8 : ℕ) * (1 / 3) + L) / ((8 : ℕ) + 1)),
        some (2 * Real.sqrt 2 * (1 / 3 - L) / 9),
        List.replicate 8 (some (Real.sqrt 2 / 4)) ++
          [some (-(2 * Real.sqrt 2))]⟩ := by
    simp only [iterBody, stA]
    rw [clip_map_A b L hb hL3, w_eight_one (1 / 3) L hL3,
      npMean_rep_app, npStd_eight_one (1 / 3) L hL3]
  have hmax : npMax (iterBody (stA b L mt st w0)).w = some (Real.sqrt 2 / 4) := by
    rw [hIter]
    have h := npMax_rep_app 7 (Real.sqrt 2 / 4) (-(2 * Real.sqrt 2)) (by nlinarith)
    simpa using h
  have hmin : npMin (iterBody (stA b L mt st w0)).w =
      some (-(2 * Real.sqrt 2)) := by
    rw [hIter]
    have h := npMin_rep_app 7 (Real.sqrt 2 / 4) (-(2 * Real.sqrt 2)) (by nlinarith)
    simpa using h
  have hncv : ¬ converged (iterBody (stA b L mt st w0)).w :=
    not_converged_of_min _ _ hmin (by rw [threshold]; nlinarith)
  rw [loopGo, if_neg hncv,
    adjustLimits_onlyLow _ _ _ hmax hmin (by rw [threshold]; nlinarith)
      (by rw [threshold]; nlinarith)]
  congr 1
  rw [hIter]
  rfl

/-- Clipping once the lower limit has passed `1/3`: all nine values collapse
onto the lower limit. -/
theorem clip_map_B (b L : ℝ) (hb : b < L) (h3 : 1 / 3 < L) (hu : L ≤ threshold) :
    (List.replicate 8 (some (1 / 3 : ℝ)) ++ [some b]).map (clipCell threshold L) =
      List.replicate 8 (some L) ++ [some L] := by
  rw [List.map_append, List.map_replicate, List.map_singleton]
  congr 2
  · rw [clipCell_some, if_neg (by rw [threshold]; norm_num), if_pos h3]
  · rw [clipCell_some, if_neg (not_lt.2 (le_trans (le_of_lt hb) hu)), if_pos hb]

/-- NumPy mean of nine equal values. -/
theorem npMean_all_eq (L : ℝ) :
    npMean (List.replicate 8 (some L) ++ [some L]) = some L := by
  rw [npMean_rep_app]
  congr 1
  push_cast
  ring

/-- NumPy std of nine equal values is zero. -/
theorem npStd_all_eq (L : ℝ) :
    npStd (List.replicate 8 (some L) ++ [some L]) = some 0 := by
  rw [npStd_rep_app]
  congr 1
  have h : (((8 : ℕ) : ℝ) * (L - ((8 : ℕ) * L + L) / ((8 : ℕ) + 1)) ^ 2 +
      (L - ((8 : ℕ) * L + L) / ((8 : ℕ) + 1)) ^ 2) / ((8 : ℕ) + 1) = 0 := by
    push_cast
    ring
  rw [h, Real.sqrt_zero]

/-- Rescaling nine equal values: `0 / 0` everywhere, a NaN series. -/
theorem w_all_eq (L : ℝ) :
    (List.replicate 8 (some L) ++ [some L]).map
      (fun ti => oDiv (oSub ti (npMean (List.replicate 8 (some L) ++ [some L])))
        (npStd (List.replicate 8 (some L) ++ [some L]))) =
      List.replicate 8 none ++ [none] := by
  rw [npMean_all_eq, npStd_all_eq, List.map_append, List.map_replicate,
    List.map_singleton]
  congr 2 <;> simp [oSub, oDiv]

/-- The all-NaN rescaled series has NaN maximum. -/
theorem npMax_nan_shape : npMax (List.replicate 8 (none : RCell) ++ [none]) = none := by
  simp [npMax]

/-- The all-NaN rescaled series has NaN minimum. -/
theorem npMin_nan_shape : npMin (List.replicate 8 (none : RCell) ++ [none]) = none := by
  simp [npMin]

/-- The collapsing iteration: once the lower limit exceeds `1/3` every value
clips onto it, the clipped std is zero, the rescaled series is NaN, so the
convergence test fails and no limit moves. -/
theorem loopGo_collapse (n : ℕ) (b L : ℝ) (mt st : RCell) (w0 : List RCell)
    (hb : b < L) (h3 : 1 / 3 < L) (hu : L ≤ threshold) :
    loopGo (n + 1) (stA b L mt st w0) = loopGo n (sbState L) := by
  have hIter : iterBody (stA b L mt st w0) = sbState L := by
    simp only [iterBody, stA, sbState]
    rw [clip_map_B b L hb h3 hu, w_all_eq, npMean_all_eq, npStd_all_eq]
  have hmax : npMax (iterBody (stA b L mt st w0)).w = none := by
    rw [hIter]
    exact npMax_nan_shape
  have hmin : npMin (iterBody (stA b L mt st w0)).w = none := by
    rw [hIter]
    exact npMin_nan_shape
  rw [loopGo, if_neg (not_converged_of_none _ hmax),
    adjustLimits_nan _ hmax hmin, hIter]

/-- The frozen terminal state is a fixed point of the loop: clipping nine
copies of `L ≤ 2.58` with limits `[L, 2.58]` changes nothing, the statistics
recompute to themselves, the NaN series keeps failing the convergence test,
and NaN comparisons freeze both limits. -/
theorem loopGo_sb_fix (n : ℕ) (L : ℝ) (hu : L ≤ threshold) :
    loopGo n (sbState L) = sbState L := by
  induction n with
  | zero => rw [loopGo]
  | succ n ih =>
    have hIter : iterBody (sbState L) = sbState L := by
      simp only [iterBody, sbState]
      have hclip : (List.replicate 8 (some L) ++ [some L]).map
          (clipCell threshold L) = List.replicate 8 (some L) ++ [some L] := by
        rw [List.map_append, List.map_replicate, List.map_singleton]
        have h : clipCell threshold L (some L) = some L := by
          rw [clipCell_some, if_neg (not_lt.2 hu), if_neg (lt_irrefl L)]
        rw [h]
      rw [hclip, w_all_eq, npMean_all_eq, npStd_all_eq]
    have hmax : npMax (iterBody (sbState L)).w = none := by
      rw [hIter]
      exact npMax_nan_shape
    have hmin : npMin (iterBody (sbState L)).w = none := by
      rw [hIter]
      exact npMin_nan_shape
    rw [loopGo, if_neg (not_converged_of_none _ hmax),
      adjustLimits_nan _ hmax hmin, hIter, ih]

/-- Phase A by downward induction: with `r` step-A iterations left before the
collapse, the remaining `7086 + r` units of fuel drive any state of the phase-A
shape into the frozen terminal state with lower limit `167/500 = 0.334`. -/
theorem loopGo_phaseA (r : ℕ) :
    r ≤ 2914 → ∀ (b : ℝ) (mt st : RCell) (w0 : List RCell),
      b < -threshold + ((2914 - r : ℕ) : ℝ) * stepSize →
      loopGo (7086 + r)
        (stA b (-threshold + ((2914 - r : ℕ) : ℝ) * stepSize) mt st w0) =
        sbState (167 / 500) := by
  induction r with
  | zero =>
    intro _ b mt st w0 hb
    have hL : -threshold + ((2914 - 0 : ℕ) : ℝ) * stepSize = 167 / 500 := by
      norm_num [threshold, stepSize]
    rw [hL] at hb ⊢
    show loopGo (7085 + 1) (stA b (167 / 500) mt st w0) = sbState (167 / 500)
    rw [loopGo_collapse 7085 b (167 / 500) mt st w0 hb (by norm_num)
      (by rw [threshold]; norm_num)]
    exact loopGo_sb_fix 7085 (167 / 500) (by rw [threshold]; norm_num)
  | succ r ih =>
    intro hr b mt st w0 hb
    have hrr : r ≤ 2914 := by omega
    have hc1 : ((2914 - (r + 1) : ℕ) : ℝ) = 2913 - r := by
      rw [Nat.cast_sub hr]
      push_cast
      ring
    have hc2 : ((2914 - r : ℕ) : ℝ) = 2914 - r := by
      rw [Nat.cast_sub hrr]
      push_cast
      ring
    have hL3 : -threshold + ((2914 - (r + 1) : ℕ) : ℝ) * stepSize < 1 / 3 := by
      rw [hc1, threshold, stepSize]
      have : (0 : ℝ) ≤ r := Nat.cast_nonneg r
      nlinarith
    have hstep : (-threshold + ((2914 - (r + 1) : ℕ) : ℝ) * stepSize) + stepSize =
        -threshold + ((2914 - r : ℕ) : ℝ) * stepSize := by
      rw [hc1, hc2, stepSize]
      ring
    show loopGo ((7086 + r) + 1)
      (stA b (-threshold + ((2914 - (r + 1) : ℕ) : ℝ) * stepSize) mt st w0) =
      sbState (167 / 500)
    rw [loopGo_stepA (7086 + r) b _ mt st w0 hb hL3, hstep]
    refine ih hrr _ _ _ _ ?_
    rw [← hstep]
    have : (0 : ℝ) < stepSize := by rw [stepSize]; norm_num
    linarith

/-- The nonconverging population: eight facilities at 1, one at 0.  (Under
IEEE doubles the collapse iteration of this exact boundary case picks up a
`5e-17` rounding residue in the clipped std and exits late instead; the
identical silent NaN freeze then occurs at the neighbouring population of
nine ones and a zero, whose statistics round the other way.) -/
noncomputable def xsBad : List RCell := List.replicate 8 (some 1) ++ [some 0]

/-- Raw pandas mean of the failing population. -/
theorem pandasMean_xsBad : pandasMean xsBad = some (8 / 9) := by
  rw [xsBad]
  simp only [pandasMean, filterMap_id_rep_app]
  rw [if_neg (by simp), sum_rep_app]
  norm_num

/-- Raw pandas std (ddof 1) of the failing population: `√(1/9) = 1/3`. -/
theorem pandasStd_xsBad : pandasStd xsBad = some (1 / 3) := by
  rw [xsBad]
  simp only [pandasStd, filterMap_id_rep_app]
  rw [if_neg (by simp)]
  congr 1
  rw [sum_rep_app, List.map_append, List.map_replicate, List.map_singleton,
    sum_rep_app]
  have h : (((8 : ℕ) : ℝ) * ((1 : ℝ) - ((8 : ℕ) * 1 + 0) /
        ((List.replicate 8 (1 : ℝ) ++ [0]).length : ℝ)) ^ 2 +
      ((0 : ℝ) - ((8 : ℕ) * 1 + 0) /
        ((List.replicate 8 (1 : ℝ) ++ [0]).length : ℝ)) ^ 2) /
      (((List.replicate 8 (1 : ℝ) ++ [0]).length : ℝ) - 1) = (1 / 3) ^ 2 := by
    simp only [List.length_append, List.length_replicate, List.length_singleton]
    push_cast
    norm_num
  rw [h, Real.sqrt_sq (by norm_num)]

/-- The initial z-scores of the failing population: `1/3` at the eight ones,
`-8/3` at the zero. -/
theorem zSeries_xsBad :
    zSeries xsBad = List.replicate 8 (some (1 / 3 : ℝ)) ++ [some (-8 / 3)] := by
  rw [zSeries, pandasMean_xsBad, pandasStd_xsBad, xsBad, List.map_append,
    List.map_replicate, List.map_singleton]
  congr 2
  · show oDiv (oSub (some 1) (some (8 / 9))) (some (1 / 3)) = some (1 / 3)
    simp [oSub, oDiv]
    norm_num
  · show oDiv (oSub (some 0) (some (8 / 9))) (some (1 / 3)) = some (-8 / 3)
    simp [oSub, oDiv]
    norm_num

/-- Full evaluation of `winsorize` on the failing population: the loop runs
2914 phase-A iterations (the lower limit climbing from −2.58 to 0.334), one
collapsing iteration, and 7085 frozen iterations, exhausting the fuel with an
all-NaN rescaled series, clipped moments `(0.334, 0)` and limits
`(2.58, 0.334)` — no convergence and no signal. -/
theorem winsorize_xsBad :
    winsorize xsBad = ⟨List.replicate 8 none ++ [none], some (167 / 500),
      some 0, threshold, 167 / 500, some (8 / 9), some (1 / 3)⟩ := by
  have hinit : initState xsBad =
      stA (-8 / 3) (-threshold + ((2914 - 2914 : ℕ) : ℝ) * stepSize) none none
        (zSeries xsBad) := by
    simp only [initState, stA]
    refine WState.ext ?_ rfl ?_ rfl rfl rfl
    · exact zSeries_xsBad
    · norm_num
  have hfin : loopGo 10000 (initState xsBad) = sbState (167 / 500) := by
    rw [hinit]
    have h := loopGo_phaseA 2914 (le_refl 2914) (-8 / 3) none none
      (zSeries xsBad) (by norm_num [threshold, stepSize])
    exact h
  refine WResult.ext ?_ ?_ ?_ ?_ ?_ ?_ ?_ <;>
    simp [winsorize, hfin, sbState, pandasMean_xsBad, pandasStd_xsBad]

/-- C3: on the population `[1,1,1,1,1,1,1,1,0]` the winsorization loop hits
the 10,000-iteration cap without converging and returns silently: the stored
rescaled series is NaN for every facility (so the `±2.58` bound fails — the
loop's own convergence test rejects the output), and the lower limit has
silently drifted to `0.334`; no `ConvergenceFailure` flag exists anywhere in
the procedure's output. -/
theorem c3_winsorize_cap_silent_nan :
    (winsorize xsBad).w = List.replicate 9 none ∧
      ¬ converged (winsorize xsBad).w ∧
      (winsorize xsBad).lol = 167 / 500 := by
  have hw : (winsorize xsBad).w = List.replicate 8 none ++ [none] := by
    rw [winsorize_xsBad]
  refine ⟨?_, ?_, ?_⟩
  · rw [hw, ← List.replicate_succ']
  · rw [hw]
    exact not_converged_of_none _ npMax_nan_shape
  · rw [winsorize_xsBad]

/-- C5 (counterexample): on the population `[1,1,1,1,1,1,1,1,0]` the frozen
lower limit is `0.334`, of magnitude far below the convergence threshold
2.58 — the claim that both final limits lie at or beyond the threshold in
magnitude is false. -/
theorem c5_limits_counterexample :
    ¬ ((2.58 : ℝ) ≤ |(winsorize xsBad).upl| ∧
        (2.58 : ℝ) ≤ |(winsorize xsBad).lol|) := by
  rintro ⟨-, h⟩
  rw [winsorize_xsBad] at h
  rw [show |(167 / 500 : ℝ)| = 167 / 500 from abs_of_pos (by norm_num)] at h
  norm_num at h

/-- C9: on the constant population `[1,1,1]` the raw std is 0; `winsorize`
neither raises nor flags anything — it divides by zero, producing NaN z-scores
for every facility, spins the loop to the cap with NaN comparisons all false,
and silently stores an all-NaN winsorized series. -/
theorem c9_zero_std_silent_nan :
    (winsorize [some 1, some 1, some 1]).std = some 0 ∧
      (winsorize [some 1, some 1, some 1]).w = List.replicate 3 none := by
  have hstd : pandasStd [some 1, some 1, some 1] = some 0 := by
    simp only [pandasStd]
    rw [if_neg (by simp)]
    congr 1
    have h : ((([some 1, some 1, some 1] : List RCell).filterMap id).map
        (fun x => (x - (([some 1, some 1, some 1] : List RCell).filterMap
          id).sum / ((([some 1, some 1, some 1] : List RCell).filterMap
            id).length : ℝ)) ^ 2)).sum /
        (((([some 1, some 1, some 1] : List RCell).filterMap id).length : ℝ) - 1)
        = 0 := by
      norm_num [List.filterMap]
    rw [h, Real.sqrt_zero]
  have hmean : pandasMean [some 1, some 1, some 1] = some 1 := by
    simp [pandasMean, List.filterMap]
    norm_num
  have hz : zSeries [some 1, some 1, some 1] = List.replicate 3 none := by
    rw [zSeries, hstd, hmean]
    simp [oSub, oDiv, List.replicate]
  have hinit : initState [some 1, some 1, some 1] =
      ⟨List.replicate 3 none, threshold, -threshold, none, none,
        List.replicate 3 none⟩ := by
    simp only [initState]
    rw [hz]
  have hfix : ∀ n : ℕ, loopGo n (⟨List.replicate 3 none, threshold, -threshold,
      none, none, List.replicate 3 none⟩ : WState) =
      ⟨List.replicate 3 none, threshold, -threshold, none, none,
        List.replicate 3 none⟩ := by
    intro n
    induction n with
    | zero => rw [loopGo]
    | succ n ih =>
      have hIter : iterBody (⟨List.replicate 3 none, threshold, -threshold,
          none, none, List.replicate 3 none⟩ : WState) =
          ⟨List.replicate 3 none, threshold, -threshold, none, none,
            List.replicate 3 none⟩ := by
        simp only [iterBody]
        have hclip : (List.replicate 3 (none : RCell)).map
            (clipCell threshold (-threshold)) = List.replicate 3 none := by
          simp [List.replicate, clipCell_none]
        rw [hclip]
        have hm : npMean (List.replicate 3 (none : RCell)) = none := by
          simp [npMean]
        have hs : npStd (List.replicate 3 (none : RCell)) = none := by
          rw [npStd, hm, Option.map_none']
        rw [hm, hs]
        refine WState.ext rfl rfl rfl rfl rfl ?_
        simp [oSub, oDiv, List.replicate]
      have hmax : npMax (iterBody (⟨List.replicate 3 none, threshold,
          -threshold, none, none, List.replicate 3 none⟩ : WState)).w = none := by
        rw [hIter]
        simp [npMax, List.replicate]
      have hmin : npMin (iterBody (⟨List.replicate 3 none, threshold,
          -threshold, none, none, List.replicate 3 none⟩ : WState)).w = none := by
        rw [hIter]
        simp [npMin, List.replicate]
      rw [loopGo, if_neg (not_converged_of_none _ hmax),
        adjustLimits_nan _ hmax hmin, hIter, ih]
  constructor
  · show pandasStd [some 1, some 1, some 1] = some 0
    exact hstd
  · show (loopGo 10000 (initState [some 1, some 1, some 1])).w =
      List.replicate 3 none
    rw [hinit, hfix 10000]

/-- Raw pandas mean of the two-row population `[0, 1]`. -/
theorem pandasMean01 : pandasMean [some 0, some 1] = some (1 / 2) := by
  simp [pandasMean, List.filterMap]

/-- Raw pandas std of the two-row population `[0, 1]`: `√(1/2)`. -/
theorem pandasStd01 : pandasStd [some 0, some 1] = some (Real.sqrt (1 / 2)) := by
  simp only [pandasStd, List.filterMap]
  rw [if_neg (by simp)]
  congr 2
  norm_num

/-- The z-scores of `[0, 1]`: `∓√(1/2)`. -/
theorem zSeries01 :
    zSeries [some 0, some 1] =
      [some (-Real.sqrt (1 / 2)), some (Real.sqrt (1 / 2))] := by
  have h1 : (0 : ℝ) < Real.sqrt (1 / 2) := Real.sqrt_pos.2 (by norm_num)
  have h2 : Real.sqrt (1 / 2) ^ 2 = 1 / 2 := Real.sq_sqrt (by norm_num)
  have e1 : ((0 : ℝ) - 1 / 2) / Real.sqrt (1 / 2) = -Real.sqrt (1 / 2) := by
    rw [div_eq_iff (ne_of_gt h1)]
    linear_combination h2
  have e2 : ((1 : ℝ) - 1 / 2) / Real.sqrt (1 / 2) = Real.sqrt (1 / 2) := by
    rw [div_eq_iff (ne_of_gt h1)]
    linear_combination -h2
  rw [zSeries, pandasMean01, pandasStd01]
  simp only [List.map_cons, List.map_nil, oSub, oDiv, if_neg (ne_of_gt h1)]
  rw [e1, e2]

/-- The rescaled series `[−1, 1]` passes the convergence test. -/
theorem converged_pm1 : converged [some (-1 : ℝ), some 1] := by
  constructor
  · refine ⟨1, ?_, ?_⟩
    · simp [npMax, List.filterMap, listMax, max_eq_right (by norm_num : (-1:ℝ) ≤ 1)]
    · rw [threshold]
      norm_num
  · refine ⟨-1, ?_, ?_⟩
    · simp [npMin, List.filterMap, listMin, min_eq_left (by norm_num : (-1:ℝ) ≤ 1)]
    · rw [threshold]
      norm_num

/-- Full evaluation of `winsorize` on `[0, 1]`: the very first iteration
converges (z-scores `∓√(1/2)` lie within `±2.58`; rescaling by the population
std `√(1/2)` gives `∓1`), so the limits stay at `±2.58`. -/
theorem winsorize_eval01 :
    winsorize [some 0, some 1] =
      ⟨[some (-1), some 1], some 0, some (Real.sqrt (1 / 2)), threshold,
        -threshold, some (1 / 2), some (Real.sqrt (1 / 2))⟩ := by
  have h1 : (0 : ℝ) < Real.sqrt (1 / 2) := Real.sqrt_pos.2 (by norm_num)
  have h2 : Real.sqrt (1 / 2) ^ 2 = 1 / 2 := Real.sq_sqrt (by norm_num)
  have hs258 : Real.sqrt (1 / 2) < 2.58 := by nlinarith
  have hclip : ([some (-Real.sqrt (1 / 2)), some (Real.sqrt (1 / 2))] :
      List RCell).map (clipCell threshold (-threshold)) =
      [some (-Real.sqrt (1 / 2)), some (Real.sqrt (1 / 2))] := by
    simp only [List.map_cons, List.map_nil, clipCell_some]
    rw [if_neg (by rw [threshold]; nlinarith), if_neg (by rw [threshold]; nlinarith),
      if_neg (by rw [threshold]; nlinarith), if_neg (by rw [threshold]; nlinarith)]
  have hm : npMean ([some (-Real.sqrt (1 / 2)), some (Real.sqrt (1 / 2))] :
      List RCell) = some 0 := by
    simp [npMean, List.filterMap]
  have hs : npStd ([some (-Real.sqrt (1 / 2)), some (Real.sqrt (1 / 2))] :
      List RCell) = some (Real.sqrt (1 / 2)) := by
    rw [npStd, hm, Option.map_some']
    congr 1
    have harg : ((([some (-Real.sqrt (1 / 2)), some (Real.sqrt (1 / 2))] :
        List RCell).filterMap id).map (fun x => (x - 0) ^ 2)).sum /
        (([some (-Real.sqrt (1 / 2)), some (Real.sqrt (1 / 2))] :
          List RCell).length : ℝ) = 1 / 2 := by
      simp [List.filterMap]
    rw [harg]
  have hw : ([some (-Real.sqrt (1 / 2)), some (Real.sqrt (1 / 2))] :
      List RCell).map (fun ti => oDiv (oSub ti (some (0 : ℝ)))
        (some (Real.sqrt (1 / 2)))) = [some (-1), some 1] := by
    have e3 : (-Real.sqrt (1 / 2) - 0) / Real.sqrt (1 / 2) = (-1 : ℝ) := by
      rw [div_eq_iff (ne_of_gt h1)]
      ring
    have e4 : (Real.sqrt (1 / 2) - 0) / Real.sqrt (1 / 2) = (1 : ℝ) := by
      rw [div_eq_iff (ne_of_gt h1)]
      ring
    simp only [List.map_cons, List.map_nil, oSub, oDiv, if_neg (ne_of_gt h1)]
    rw [e3, e4]
  have hIter : iterBody (initState [some 0, some 1]) =
      ⟨[some (-Real.sqrt (1 / 2)), some (Real.sqrt (1 / 2))], threshold,
        -threshold, some 0, some (Real.sqrt (1 / 2)), [some (-1), some 1]⟩ := by
    simp only [iterBody, initState]
    rw [zSeries01, hclip, hm, hs, hw]
  have hconv : converged (iterBody (initState [some 0, some 1])).w := by
    rw [hIter]
    exact converged_pm1
  have hloop : loopGo 10000 (initState [some 0, some 1]) =
      iterBody (initState [some 0, some 1]) := by
    show loopGo (9999 + 1) (initState [some 0, some 1]) =
      iterBody (initState [some 0, some 1])
    rw [loopGo, if_pos hconv]
  refine WResult.ext ?_ ?_ ?_ ?_ ?_ ?_ ?_ <;>
    simp [winsorize, hloop, hIter, pandasMean01, pandasStd01]

/-- C4 (witness): on the population `[0, 1]` the calibration converges with
well-formed limits, and the current-period applier reproduces the winsorized
scores `[−1, 1]` exactly. -/
theorem c4_roundtrip_witness :
    converged (winsorize [some 0, some 1]).w ∧
      (winsorize [some 0, some 1]).lol ≤ (winsorize [some 0, some 1]).upl ∧
      (restandardize_var [some 0, some 1] (winsorize [some 0, some 1]).mean
          (winsorize [some 0, some 1]).std (winsorize [some 0, some 1]).upl
          (winsorize [some 0, some 1]).lol (winsorize [some 0, some 1]).mean_t
          (winsorize [some 0, some 1]).std_t).map RRow.wc =
        (winsorize [some 0, some 1]).w := by
  have h1 : converged (winsorize [some 0, some 1]).w := by
    rw [show (winsorize [some 0, some 1]).w = [some (-1), some 1] by
      rw [winsorize_eval01]]
    exact converged_pm1
  have h2 : (winsorize [some 0, some 1]).lol ≤ (winsorize [some 0, some 1]).upl := by
    rw [winsorize_eval01]
    show -threshold ≤ threshold
    rw [threshold]
    norm_num
  exact ⟨h1, h2, c4_roundtrip [some 0, some 1] h1 h2⟩

end WinsorizationProofs

end StarRating

